import Mathlib

/-!
Verification of the Recipe Acquisition & Persistence Pipeline of the
cook.ai repository, as a shallow embedding in Lean 4.

The embedding covers:
- the data model (`Recipe`, `Ingredient`, `CookingStep`) from
  src/types/Recipe.ts;
- the recipe generator (`GeminiService.generateRecipe` with its retry
  loop, validation, JSON-span extraction, and image fallback) from
  src/services/geminiService.ts;
- the per-user recipe store (`RecipeStorageService`) with upsert,
  favorite toggle, rating clamp, legacy migration and import merge.

External effects (the generation service, the image search service,
`Date.now()`, `Math.random()`, `localStorage`) are modelled as explicit
environment values threaded through the definitions; JavaScript number
values appearing in the claims are modelled as `Int`, timestamps as `Int`.
-/

namespace CookAI

/-! ## Data model (src/types/Recipe.ts) -/

structure Ingredient where
  name : String
  amount : String
deriving DecidableEq, Repr

/-- A cooking step of a finished `Recipe`. `image` is optional in the
TypeScript interface (`image?: string`). -/
structure CookingStep where
  id : Int
  instruction : String
  duration : Int
  image : Option String
deriving DecidableEq, Repr

/-- `Recipe` from src/types/Recipe.ts. `difficulty` is a string at
runtime (the TypeScript union is not checked dynamically); `createdAt`
is a millisecond timestamp. -/
structure Recipe where
  id : String
  title : String
  description : String
  image : String
  cookTime : Int
  difficulty : String
  servings : Int
  ingredients : List Ingredient
  steps : List CookingStep
  rating : Int
  isFavorite : Bool
  createdAt : Int
deriving DecidableEq, Repr

/-! ## Recipe store (RecipeStorageService)

Each operation of the service is a read-modify-write of the whole
per-user collection; we embed the collection transformation on
`List Recipe`, which is what the service persists and returns. -/

/-- `saveUserRecipe`: `findIndex` on the recipe id, replace in place when
found, append otherwise. -/
def saveUserRecipe (existing : List Recipe) (recipe : Recipe) : List Recipe :=
  match existing.findIdx? (fun r => r.id == recipe.id) with
  | some i => existing.set i recipe
  | none => existing ++ [recipe]

/-- `deleteUserRecipe`: filter out the recipe with the given id. -/
def deleteUserRecipe (existing : List Recipe) (recipeId : String) : List Recipe :=
  existing.filter (fun r => r.id != recipeId)

/-- `toggleRecipeFavorite`: map over the collection, negating
`isFavorite` on the matching id. -/
def toggleRecipeFavorite (existing : List Recipe) (recipeId : String) : List Recipe :=
  existing.map (fun r => if r.id == recipeId then { r with isFavorite := !r.isFavorite } else r)

/-- The stored rating: `Math.max(0, Math.min(5, rating))`. -/
def clampRating (rating : Int) : Int :=
  max 0 (min 5 rating)

/-- `rateRecipe`: map over the collection, clamping the rating into
[0,5] on the matching id. -/
def rateRecipe (existing : List Recipe) (recipeId : String) (rating : Int) : List Recipe :=
  existing.map (fun r => if r.id == recipeId then { r with rating := clampRating rating } else r)

/-! ### Read path (`getUserRecipes`)

`getUserRecipes` reads the raw string under the user key from
localStorage: an absent key returns `[]`, a `JSON.parse` failure is
caught and returns `[]`, and a successful parse re-wraps every
`createdAt` in `new Date(...)` (identity on our timestamp model). -/

/-- The observable state of the durable record under one user key. -/
inductive StoredState where
  /-- no value stored under the key (`localStorage.getItem` is null) -/
  | absent
  /-- a value is stored but deserialization throws (`JSON.parse` fails) -/
  | corrupted
  /-- a value is stored and deserializes to this recipe list -/
  | valid (recipes : List Recipe)
deriving DecidableEq

/-- `getUserRecipes`: absent and corrupted states both degrade to the
empty collection; a valid state yields its recipes with `createdAt`
re-normalized through the `Date` constructor. -/
def getUserRecipes : StoredState → List Recipe
  | .absent => []
  | .corrupted => []
  | .valid recipes => recipes.map (fun r => { r with createdAt := r.createdAt })

/-! ### Legacy migration (`migrateLegacyRecipes`)

The relevant durable state is the unscoped legacy record
(key `cook-ai-recipes`) and the record under the user key. A record is
modelled as `Option (List Recipe)` — `none` when the key is absent. The
source guard (legacy value present and different from the serialization
of the empty array) holds exactly when the legacy record is present and
its serialized list is non-empty, and
`!existingUserRecipes` holds exactly when the user key is absent
(every value the service itself stores is a JSON array string, which is
a non-empty, hence truthy, string). -/

structure MigrationStore where
  /-- the unscoped record under key cook-ai-recipes, if present -/
  legacy : Option (List Recipe)
  /-- the record under the user key, if present -/
  userRecipes : Option (List Recipe)
deriving DecidableEq

/-- `migrateLegacyRecipes`: when a non-empty legacy record exists, copy
it to the user key only if that key is absent, and remove the legacy
record in either case; otherwise do nothing. -/
def migrateLegacyRecipes (s : MigrationStore) : MigrationStore :=
  match s.legacy with
  | some legacyList =>
    if legacyList ≠ [] then
      { legacy := none
        userRecipes := if s.userRecipes.isNone then some legacyList else s.userRecipes }
    else s
  | none => s

/-! ### Import merge (`importUserRecipes`)

`importUserRecipes` parses the incoming JSON into a recipe list, then
walks it in order: an incoming recipe whose title matches some existing
recipe case-insensitively is skipped, any other is pushed onto the
merged list with a freshly generated id (`Date.now().toString()` plus a
random suffix) and a fresh `createdAt`. Id generation and the clock are
environment inputs, modelled as a function `freshId` from the position
of the incoming recipe to the generated id, and a timestamp `now`. -/

/-- Lower-casing of a title, as `String.prototype.toLowerCase` on the
titles the service compares; embedded on the character list (two
lower-cased strings are equal exactly when these lists are). -/
def lowerTitle (s : String) : List Char :=
  s.toList.map Char.toLower

/-- The duplicate test of `importUserRecipes`: some existing recipe has
the same title up to case. -/
def titleExists (existing : List Recipe) (incoming : Recipe) : Bool :=
  existing.any (fun e => lowerTitle e.title == lowerTitle incoming.title)

/-- The admitted form of an incoming recipe: same content, fresh id and
fresh creation timestamp. -/
def admitRecipe (incoming : Recipe) (newId : String) (now : Int) : Recipe :=
  { incoming with id := newId, createdAt := now }

/-- `importUserRecipes` on an already-parsed incoming list: the existing
collection followed by every incoming recipe that clears the duplicate
test against the pre-import collection, admitted with a fresh id and
timestamp. `freshId k` is the id generated for the incoming recipe at
position `k`. -/
def importUserRecipes (existing : List Recipe) (imported : List Recipe)
    (freshId : Nat → String) (now : Int) : List Recipe :=
  existing ++ (imported.enum.filterMap (fun p =>
    if titleExists existing p.2 then none
    else some (admitRecipe p.2 (freshId p.1) now)))

/-! ## String helpers for the generator

`String.prototype.includes` on lower-cased error messages, embedded on
character lists. -/

/-- Whether `pat` is a prefix of `l` (character lists). -/
def prefixOfChars : List Char → List Char → Bool
  | [], _ => true
  | _ :: _, [] => false
  | a :: as, b :: bs => a == b && prefixOfChars as bs

/-- Whether `pat` occurs as a contiguous substring of `l`. -/
def containsSub : List Char → List Char → Bool
  | [], pat => pat.isEmpty
  | a :: l, pat => prefixOfChars pat (a :: l) || containsSub l pat

/-- `message.toLowerCase().includes(pat)` — `pat` is written lower-case
at every call site of the source. -/
def msgIncludes (message pat : String) : Bool :=
  containsSub (message.toList.map Char.toLower) pat.toList

/-! ## Image resolver (`fetchRecipeImage`, `getFallbackFoodImage`) -/

/-- The fixed fallback pool of `getFallbackFoodImage` (six Pexels URLs). -/
def foodImages : List String :=
  [ "https://images.pexels.com/photos/1640777/pexels-photo-1640777.jpeg?auto=compress&cs=tinysrgb&w=800"
  , "https://images.pexels.com/photos/376464/pexels-photo-376464.jpeg?auto=compress&cs=tinysrgb&w=800"
  , "https://images.pexels.com/photos/1279330/pexels-photo-1279330.jpeg?auto=compress&cs=tinysrgb&w=800"
  , "https://images.pexels.com/photos/1633578/pexels-photo-1633578.jpeg?auto=compress&cs=tinysrgb&w=800"
  , "https://images.pexels.com/photos/1565982/pexels-photo-1565982.jpeg?auto=compress&cs=tinysrgb&w=800"
  , "https://images.pexels.com/photos/1099680/pexels-photo-1099680.jpeg?auto=compress&cs=tinysrgb&w=800" ]

/-- `getFallbackFoodImage`: a uniformly random member of the pool;
`Math.floor(Math.random() * length)` is modelled by an arbitrary natural
reduced modulo the pool size. -/
def getFallbackFoodImage (randomIdx : Nat) : String :=
  foodImages.get ⟨randomIdx % foodImages.length, Nat.mod_lt _ (by decide)⟩

/-- Environment of one `fetchRecipeImage` call: the outcome of the
custom-search request and of the HEAD reachability probe, plus the
random draw used by the fallback. -/
structure ImageEnv where
  /-- VITE_GOOGLE_SEARCH_API_KEY is configured -/
  hasSearchKey : Bool
  /-- the search fetch threw (network error or 5-second abort) -/
  searchThrew : Bool
  /-- the search response status was 2xx -/
  searchOk : Bool
  /-- the links of the returned items, in order -/
  items : List String
  /-- the HEAD probe of the first link succeeded within its timeout -/
  headOk : Bool
  /-- the random draw for the fallback choice -/
  randomIdx : Nat

/-- `fetchRecipeImage`: returns the first search result link when the
key is configured, the request succeeds, a first item with a truthy
(non-empty) link exists and its HEAD probe succeeds; every other path
falls back to the pool. -/
def fetchRecipeImage (env : ImageEnv) : String :=
  if !env.hasSearchKey then getFallbackFoodImage env.randomIdx
  else if env.searchThrew then getFallbackFoodImage env.randomIdx
  else if !env.searchOk then getFallbackFoodImage env.randomIdx
  else
    match env.items with
    | [] => getFallbackFoodImage env.randomIdx
    | link :: _ =>
      if link ≠ "" && env.headOk then link
      else getFallbackFoodImage env.randomIdx

/-! ## Parsed generation payload and validation

`JSON.parse` of the extracted span yields an object whose fields may
each be absent; absent fields are `none`. JavaScript truthiness of the
defaults (`recipeData.cookTime || 30` treats the number 0 as absent,
and the difficulty default treats the empty string as absent)
is embedded explicitly. An empty array is truthy, so the required-field
check on `ingredients` and `steps` only tests presence. -/

/-- One entry of the payload steps array; the upstream id may be absent
or arbitrary — it is discarded at construction. -/
structure StepData where
  id : Option Int
  instruction : String
  duration : Int
deriving DecidableEq, Repr

/-- The parsed generation payload. -/
structure RecipeData where
  title : Option String
  description : Option String
  cookTime : Option Int
  difficulty : Option String
  servings : Option Int
  ingredients : Option (List Ingredient)
  steps : Option (List StepData)
deriving DecidableEq, Repr

/-- JavaScript `x || dflt` on an optional number: 0 and absence are
falsy. -/
def jsOrInt (v : Option Int) (dflt : Int) : Int :=
  match v with
  | some n => if n ≠ 0 then n else dflt
  | none => dflt

/-- JavaScript `x || dflt` on an optional string: the empty string and
absence are falsy. -/
def jsOrStr (v : Option String) (dflt : String) : String :=
  match v with
  | some s => if s ≠ "" then s else dflt
  | none => dflt

/-- The required-field check
`!recipeData.title || !recipeData.ingredients || !recipeData.steps`:
title must be present and non-empty (a present empty string is falsy);
ingredients and steps must be present (a present empty array is truthy
and passes). -/
def validRecipeData (d : RecipeData) : Bool :=
  (match d.title with
   | some t => t ≠ ""
   | none => false)
  && d.ingredients.isSome && d.steps.isSome

/-- The steps of the constructed recipe:
`recipeData.steps.map((step, index) => ({...step, id: index + 1, image: recipeImage}))` —
the upstream id is overridden by the 1-based position, and the single
cover image is attached to every step. -/
def stepsWithImages (steps : List StepData) (recipeImage : String) : List CookingStep :=
  steps.enum.map (fun p =>
    { id := (p.1 : Int) + 1
      instruction := p.2.instruction
      duration := p.2.duration
      image := some recipeImage })

/-- The `Recipe` literal built on the success path of `generateRecipe`
from a validated payload, the resolved cover image, the generated id and
the current time. -/
def buildRecipe (d : RecipeData) (recipeImage : String) (newId : String) (now : Int) : Recipe :=
  { id := newId
    title := d.title.getD ""
    description := d.description.getD ""
    image := recipeImage
    cookTime := jsOrInt d.cookTime 30
    difficulty := jsOrStr d.difficulty "Medium"
    servings := jsOrInt d.servings 4
    ingredients := d.ingredients.getD []
    steps := stepsWithImages (d.steps.getD []) recipeImage
    rating := 0
    isFavorite := false
    createdAt := now }

/-! ## JSON-span extraction

`generateRecipe` runs `text.match` with the greedy pattern
open-brace, any characters, close-brace over the whole response text.
Regex semantics: the match starts at the leftmost position from which a
match exists — the first opening brace that is followed by some closing
brace — and, the inner part being greedy, extends to the LAST closing
brace of the text. -/

/-- Index of the first occurrence of `c` in `l`, if any. -/
def firstIdxChar : List Char → Char → Option Nat
  | [], _ => none
  | a :: l, c => if a = c then some 0 else (firstIdxChar l c).map (· + 1)

/-- Index of the last occurrence of `c` in `l`, if any. -/
def lastIdxChar : List Char → Char → Option Nat
  | [], _ => none
  | a :: l, c =>
    match lastIdxChar l c with
    | some j => some (j + 1)
    | none => if a = c then some 0 else none

/-- The span the greedy match extracts from the response text: from the
first opening brace that precedes the last closing brace, through that
last closing brace; `none` when no such pair exists (the source then
fails with an invalid-format error). -/
def extractJsonMatch (text : List Char) : Option (List Char) :=
  (lastIdxChar text '}').bind (fun j =>
    (firstIdxChar (text.take j) '{').map (fun i =>
      (text.drop i).take (j + 1 - i)))

/-- Modelled from the spec: scan from the first opening brace tracking
brace depth and stop at the closing brace that returns the depth to
zero — the first top-level brace-delimited span of the text. Used only
to compare the source extraction against the spec wording. -/
def topLevelSpanFrom : List Char → Nat → List Char → Option (List Char)
  | [], _, _ => none
  | a :: l, depth, acc =>
    if a = '}' then
      if depth = 1 then some (acc ++ ['}'])
      else topLevelSpanFrom l (depth - 1) (acc ++ ['}'])
    else if a = '{' then topLevelSpanFrom l (depth + 1) (acc ++ ['{'])
    else topLevelSpanFrom l depth (acc ++ [a])

/-- Modelled from the spec: the first top-level brace-delimited span of
the text. -/
def firstTopLevelSpan : List Char → Option (List Char)
  | [] => none
  | a :: l => if a = '{' then topLevelSpanFrom l 1 ['{'] else firstTopLevelSpan l

/-! ## The generator retry loop (`generateRecipe`)

The loop makes up to `maxRetries` attempts. Each attempt invokes the
generation service, extracts and parses the JSON span, validates the
required fields, resolves the cover image and builds the recipe. A
failure carrying an overload / 503 / rate limit / quota signal before
the last attempt waits `baseDelay * 2 ^ (attempt - 1)` and retries; a
non-retryable failure on attempt 1 is rethrown as is; a failure on the
last attempt ends the loop; any other failure waits `baseDelay * attempt`
and retries. An exhausted loop throws the classified helpful message.

The service is an environment: for each attempt number it either throws
(with a message) or returns a response whose extracted span parses to a
payload (`none` models no brace span or a JSON parse failure, both of
which raise inside the try block). -/

/-- `maxRetries = 3`. -/
def maxRetries : Nat := 3

/-- `baseDelay = 2000` milliseconds. -/
def baseDelay : Nat := 2000

/-- Outcome of one generation-service invocation. -/
inductive ServiceOutcome where
  /-- the service call threw with this message -/
  | threw (msg : String)
  /-- the service returned text; `payload` is the parse of the extracted
  span (`none`: no span or unparseable span, raising the invalid-format
  error) -/
  | responded (payload : Option RecipeData)

/-- Environment of one `generateRecipe` call: the per-attempt service
outcome, the image-resolver environment, and the generated id and clock
reading for the attempt that succeeds. -/
structure GenEnv where
  service : Nat → ServiceOutcome
  img : ImageEnv
  newId : Nat → String
  now : Nat → Int

/-- The body of one loop iteration up to recipe construction: service
call, span extraction and parse, required-field validation, image
resolution, construction. -/
def attemptOnce (env : GenEnv) (attempt : Nat) : Except String Recipe :=
  match env.service attempt with
  | .threw msg => .error msg
  | .responded none => .error "Invalid response format from Gemini"
  | .responded (some d) =>
    if validRecipeData d then
      .ok (buildRecipe d (fetchRecipeImage env.img) (env.newId attempt) (env.now attempt))
    else .error "Incomplete recipe data received"

/-- The in-loop classification guarding the exponential-backoff branch:
overloaded, 503, rate limit or quota in the lower-cased message. -/
def isRateLimitSignal (msg : String) : Bool :=
  msgIncludes msg "overloaded" || msgIncludes msg "503" ||
  msgIncludes msg "rate limit" || msgIncludes msg "quota"

/-- `isRetryableError`: the four rate-limit signals plus timeout and
network. -/
def isRetryableError (msg : String) : Bool :=
  msgIncludes msg "overloaded" || msgIncludes msg "503" ||
  msgIncludes msg "rate limit" || msgIncludes msg "quota" ||
  msgIncludes msg "timeout" || msgIncludes msg "network"

/-- `getHelpfulErrorMessage`: the user-facing classification of the last
error. -/
def getHelpfulErrorMessage (lastError : Option String) : String :=
  match lastError with
  | none => "Failed to generate recipe. Please try again."
  | some msg =>
    if msgIncludes msg "overloaded" || msgIncludes msg "503" then
      "The AI service is currently busy. Please try again in a few moments."
    else if msgIncludes msg "rate limit" || msgIncludes msg "quota" then
      "Too many requests. Please wait a moment and try again."
    else if msgIncludes msg "network" || msgIncludes msg "timeout" then
      "Network connection issue. Please check your internet and try again."
    else if msgIncludes msg "api key" then
      "API configuration error. Please contact support."
    else
      "Failed to generate recipe. Please try again or try a different recipe request."

/-- Result of a `generateRecipe` call: the thrown or returned value, the
number of attempts made, and the sequence of delays slept between
attempts, in order. -/
structure GenResult where
  result : Except String Recipe
  attemptsMade : Nat
  delays : List Nat

/-- The retry loop from iteration `attempt` on, with `fuel` iterations
still allowed (the loop itself bounds `attempt` by `maxRetries`; the
fuel only founds the recursion and is never exhausted first). -/
def genLoop (env : GenEnv) : Nat → Nat → Option String → List Nat → GenResult
  | 0, attempt, lastError, delays =>
    ⟨.error (getHelpfulErrorMessage lastError), attempt - 1, delays⟩
  | fuel + 1, attempt, _, delays =>
    match attemptOnce env attempt with
    | .ok recipe => ⟨.ok recipe, attempt, delays⟩
    | .error msg =>
      if isRateLimitSignal msg && decide (attempt < maxRetries) then
        genLoop env fuel (attempt + 1) (some msg) (delays ++ [baseDelay * 2 ^ (attempt - 1)])
      else if attempt = 1 && !isRetryableError msg then
        ⟨.error msg, 1, delays⟩
      else if attempt = maxRetries then
        ⟨.error (getHelpfulErrorMessage (some msg)), attempt, delays⟩
      else
        genLoop env fuel (attempt + 1) (some msg) (delays ++ [baseDelay * attempt])

/-- `generateRecipe`: run the loop from attempt 1. -/
def generateRecipe (env : GenEnv) : GenResult :=
  genLoop env maxRetries 1 none []

/-! ## Concrete recipes used by witnesses -/

/-- A concrete stored recipe used to instantiate witnesses. -/
def sampleTacos : Recipe :=
  { id := "id-1", title := "Beef Tacos", description := "d", image := "u"
    cookTime := 30, difficulty := "Easy", servings := 4
    ingredients := [⟨"beef", "1 lb"⟩], steps := [⟨1, "cook", 10, none⟩]
    rating := 3, isFavorite := false, createdAt := 100 }

/-- A second concrete recipe with a different id and title. -/
def sampleSoup : Recipe :=
  { id := "id-2", title := "Soup", description := "d", image := "u"
    cookTime := 20, difficulty := "Easy", servings := 2
    ingredients := [⟨"water", "1 l"⟩], steps := [⟨1, "boil", 5, none⟩]
    rating := 0, isFavorite := true, createdAt := 200 }

/-! Concrete generation environments used by the generator witnesses and
the C3 counterexample. -/

/-- A payload with two ingredients and four steps, the first three steps
without upstream ids and the last with a stray upstream id. -/
def chickenPayload : RecipeData :=
  { title := some "Chicken Pasta", description := some "d"
    cookTime := some 25, difficulty := some "Easy", servings := some 2
    ingredients := some [⟨"chicken", "1"⟩, ⟨"pasta", "200 g"⟩]
    steps := some [⟨none, "boil", 5⟩, ⟨none, "cook", 10⟩, ⟨some 7, "mix", 2⟩, ⟨none, "serve", 1⟩] }

/-- An image environment without a search key: always the fallback. -/
def offlineImageEnv : ImageEnv :=
  ⟨false, false, false, [], false, 2⟩

/-- A service that responds with `chickenPayload` on every attempt. -/
def chickenEnv : GenEnv :=
  ⟨fun _ => .responded (some chickenPayload), offlineImageEnv, fun _ => "gen-id", fun _ => 1234⟩

/-- The recipe `chickenEnv` produces. -/
def chickenRecipe : Recipe :=
  buildRecipe chickenPayload (fetchRecipeImage offlineImageEnv) "gen-id" 1234

/-- A payload with present but empty ingredients and steps arrays. -/
def emptyArraysPayload : RecipeData :=
  { title := some "Empty", description := some "d"
    cookTime := some 10, difficulty := some "Easy", servings := some 1
    ingredients := some [], steps := some [] }

/-- A service environment that always returns `emptyArraysPayload`. -/
def emptyArraysEnv : GenEnv :=
  ⟨fun _ => .responded (some emptyArraysPayload), offlineImageEnv, fun _ => "cex-id", fun _ => 0⟩

/-- The recipe `emptyArraysEnv` produces. -/
def emptyArraysRecipe : Recipe :=
  buildRecipe emptyArraysPayload (fetchRecipeImage offlineImageEnv) "cex-id" 0

/-- A service failing with a rate-limit signal on the first two attempts
and returning the chicken payload on the third. -/
def backoffEnv : GenEnv :=
  ⟨fun n => if n ≤ 2 then .threw "rate limit" else .responded (some chickenPayload),
   offlineImageEnv, fun _ => "gen-id", fun _ => 55⟩

/-! ## Lemmas about the store -/

/-- Unfolding equation of `saveUserRecipe` on a cons cell. -/
theorem saveUserRecipe_cons (x : Recipe) (xs : List Recipe) (recipe : Recipe) :
    saveUserRecipe (x :: xs) recipe =
      if x.id == recipe.id then recipe :: xs else x :: saveUserRecipe xs recipe := by
  unfold saveUserRecipe
  rw [List.findIdx?_cons]
  by_cases h : x.id == recipe.id
  · simp [h]
  · simp only [h, if_false, Bool.false_eq_true]
    rw [List.findIdx?_succ]
    cases hf : List.findIdx? (fun r => r.id == recipe.id) xs with
    | none => simp
    | some i => simp

/-- When no existing recipe carries the incoming id, `saveUserRecipe`
appends. -/
theorem saveUserRecipe_append (existing : List Recipe) (recipe : Recipe)
    (h : ∀ r ∈ existing, r.id ≠ recipe.id) :
    saveUserRecipe existing recipe = existing ++ [recipe] := by
  induction existing with
  | nil => rfl
  | cons x xs ih =>
    rw [saveUserRecipe_cons]
    have hx : (x.id == recipe.id) = false := by
      simpa using h x (List.mem_cons_self x xs)
    rw [hx]
    simp only [if_false, Bool.false_eq_true, List.cons_append]
    rw [ih (fun r hr => h r (List.mem_cons_of_mem x hr))]

/-- When some existing recipe carries the incoming id, `saveUserRecipe`
replaces the first such occurrence in place. -/
theorem saveUserRecipe_replace (existing : List Recipe) (recipe : Recipe)
    (h : ∃ r ∈ existing, r.id = recipe.id) :
    ∃ i, ∃ hi : i < existing.length,
      existing[i].id = recipe.id ∧ saveUserRecipe existing recipe = existing.set i recipe := by
  induction existing with
  | nil => simp at h
  | cons x xs ih =>
    by_cases hx : x.id = recipe.id
    · refine ⟨0, by simp, hx, ?_⟩
      rw [saveUserRecipe_cons]
      simp [hx]
    · obtain ⟨r, hr, hrid⟩ := h
      rcases List.mem_cons.mp hr with rfl | hr'
      · exact absurd hrid hx
      · obtain ⟨i, hi, hid, heq⟩ := ih ⟨r, hr', hrid⟩
        refine ⟨i + 1, by simpa using Nat.succ_lt_succ hi, by simpa using hid, ?_⟩
        rw [saveUserRecipe_cons]
        have hxb : (x.id == recipe.id) = false := by simpa using hx
        rw [hxb]
        simp only [if_false, Bool.false_eq_true, heq]
        rfl

/-- Upserting the same recipe twice equals upserting it once. -/
theorem saveUserRecipe_idem (existing : List Recipe) (recipe : Recipe) :
    saveUserRecipe (saveUserRecipe existing recipe) recipe = saveUserRecipe existing recipe := by
  induction existing with
  | nil =>
    show saveUserRecipe [recipe] recipe = [recipe]
    rw [saveUserRecipe_cons]
    simp
  | cons x xs ih =>
    rw [saveUserRecipe_cons]
    by_cases hx : x.id == recipe.id
    · rw [if_pos hx, saveUserRecipe_cons]
      simp
    · rw [if_neg hx, saveUserRecipe_cons, if_neg hx, ih]

/-- C5: `saveUserRecipe` replaces in place (position preserved) when a
recipe with the same id exists, appends otherwise, and is idempotent —
upserting an unchanged recipe twice yields the same collection (hence
the same length and content) as upserting it once. -/
theorem saveUserRecipe_upsert_spec (existing : List Recipe) (recipe : Recipe) :
    ((∀ r ∈ existing, r.id ≠ recipe.id) →
       saveUserRecipe existing recipe = existing ++ [recipe])
    ∧ ((∃ r ∈ existing, r.id = recipe.id) →
       ∃ i, ∃ hi : i < existing.length,
         existing[i].id = recipe.id ∧ saveUserRecipe existing recipe = existing.set i recipe)
    ∧ saveUserRecipe (saveUserRecipe existing recipe) recipe = saveUserRecipe existing recipe :=
  ⟨saveUserRecipe_append existing recipe,
   saveUserRecipe_replace existing recipe,
   saveUserRecipe_idem existing recipe⟩

/-- C5 witness: on the concrete collection `[sampleTacos]`, upserting
`sampleSoup` (a fresh id) appends, and a second upsert of the same
recipe changes nothing. -/
theorem saveUserRecipe_upsert_spec_witness :
    saveUserRecipe [sampleTacos] sampleSoup = [sampleTacos] ++ [sampleSoup]
    ∧ saveUserRecipe (saveUserRecipe [sampleTacos] sampleSoup) sampleSoup
        = saveUserRecipe [sampleTacos] sampleSoup :=
  ⟨(saveUserRecipe_upsert_spec [sampleTacos] sampleSoup).1 (by decide),
   (saveUserRecipe_upsert_spec [sampleTacos] sampleSoup).2.2⟩

/-- C6: when a non-empty legacy record exists, one `migrateLegacyRecipes`
call copies it to the user key exactly when that key was absent, leaves
an already-present user collection untouched (legacy data discarded),
deletes the legacy record in either case, and a second call is a no-op. -/
theorem migrateLegacyRecipes_exactly_once (s : MigrationStore) (legacyList : List Recipe)
    (hleg : s.legacy = some legacyList) (hne : legacyList ≠ []) :
    ((migrateLegacyRecipes s).legacy = none)
    ∧ (s.userRecipes = none → (migrateLegacyRecipes s).userRecipes = some legacyList)
    ∧ (∀ u, s.userRecipes = some u → (migrateLegacyRecipes s).userRecipes = some u)
    ∧ migrateLegacyRecipes (migrateLegacyRecipes s) = migrateLegacyRecipes s := by
  obtain ⟨leg, usr⟩ := s
  simp only [MigrationStore.mk.injEq] at hleg ⊢
  subst hleg
  cases usr with
  | none => simp [migrateLegacyRecipes, hne]
  | some u => simp [migrateLegacyRecipes, hne]

/-- C6 witness: a store with a one-recipe legacy record and no user
record is migrated, the legacy record is deleted, and the second call is
a no-op. -/
theorem migrateLegacyRecipes_exactly_once_witness :
    ((migrateLegacyRecipes ⟨some [sampleTacos], none⟩).legacy = none)
    ∧ ((⟨some [sampleTacos], none⟩ : MigrationStore).userRecipes = none →
        (migrateLegacyRecipes ⟨some [sampleTacos], none⟩).userRecipes = some [sampleTacos])
    ∧ (∀ u, (⟨some [sampleTacos], none⟩ : MigrationStore).userRecipes = some u →
        (migrateLegacyRecipes ⟨some [sampleTacos], none⟩).userRecipes = some u)
    ∧ migrateLegacyRecipes (migrateLegacyRecipes ⟨some [sampleTacos], none⟩)
        = migrateLegacyRecipes ⟨some [sampleTacos], none⟩ :=
  migrateLegacyRecipes_exactly_once ⟨some [sampleTacos], none⟩ [sampleTacos] rfl (by decide)

/-- C8: `rateRecipe` stores the rating clamped into [0,5] on the
matching id (7 stores as 5, -3 stores as 0), and on an id absent from
the collection both `rateRecipe` and `toggleRecipeFavorite` return the
collection unchanged. -/
theorem rateRecipe_clamps_and_noop (existing : List Recipe) (recipeId : String) (rating : Int) :
    clampRating 7 = 5
    ∧ clampRating (-3) = 0
    ∧ (0 ≤ clampRating rating ∧ clampRating rating ≤ 5)
    ∧ (∀ (k : Nat) (r : Recipe), existing[k]? = some r → r.id = recipeId →
        (rateRecipe existing recipeId rating)[k]? =
          some { r with rating := clampRating rating })
    ∧ ((∀ r ∈ existing, r.id ≠ recipeId) →
        rateRecipe existing recipeId rating = existing
        ∧ toggleRecipeFavorite existing recipeId = existing) := by
  refine ⟨by decide, by decide, ?_, ?_, ?_⟩
  · unfold clampRating
    omega
  · intro k r hk hid
    unfold rateRecipe
    rw [List.getElem?_map, hk]
    simp [hid]
  · intro h
    constructor
    · unfold rateRecipe
      rw [List.map_congr_left (g := id), List.map_id]
      intro r hr
      have : (r.id == recipeId) = false := by simpa using h r hr
      simp [this]
    · unfold toggleRecipeFavorite
      rw [List.map_congr_left (g := id), List.map_id]
      intro r hr
      have : (r.id == recipeId) = false := by simpa using h r hr
      simp [this]

/-- C8 witness: rating `sampleTacos` with 7 then -3 on its own id, and
the no-op on an unknown id, at concrete inputs. -/
theorem rateRecipe_clamps_and_noop_witness :
    ((rateRecipe [sampleTacos] "id-1" 7)[0]? =
      some { sampleTacos with rating := clampRating 7 })
    ∧ ((rateRecipe [sampleTacos] "id-1" (-3))[0]? =
      some { sampleTacos with rating := clampRating (-3) })
    ∧ (rateRecipe [sampleTacos] "missing" 7 = [sampleTacos]
       ∧ toggleRecipeFavorite [sampleTacos] "missing" = [sampleTacos]) :=
  ⟨((rateRecipe_clamps_and_noop [sampleTacos] "id-1" 7).2.2.2.1 0 sampleTacos rfl rfl),
   ((rateRecipe_clamps_and_noop [sampleTacos] "id-1" (-3)).2.2.2.1 0 sampleTacos rfl rfl),
   ((rateRecipe_clamps_and_noop [sampleTacos] "missing" 7).2.2.2.2 (by decide))⟩

/-- C9: an absent or unreadable durable record degrades to the empty
collection rather than an error, while a readable record yields exactly
its recipes. -/
theorem getUserRecipes_read_failure_empty (st : StoredState) :
    (st = .absent ∨ st = .corrupted → getUserRecipes st = [])
    ∧ (∀ rs, st = .valid rs → getUserRecipes st = rs) := by
  constructor
  · rintro (rfl | rfl) <;> rfl
  · rintro rs rfl
    show rs.map (fun r => { r with createdAt := r.createdAt }) = rs
    have : (fun r : Recipe => { r with createdAt := r.createdAt }) = id := by
      funext r
      cases r
      rfl
    rw [this, List.map_id]

/-- C9 witness: the corrupted state yields the empty collection. -/
theorem getUserRecipes_read_failure_empty_witness :
    getUserRecipes .corrupted = [] :=
  (getUserRecipes_read_failure_empty .corrupted).1 (Or.inr rfl)

/-- C7: the import-merged collection holds exactly the pre-existing
recipes plus, for each incoming recipe whose title matches no existing
title case-insensitively, its admitted form — which carries the freshly
generated id and the fresh import timestamp, never the incoming id or
timestamp; whenever the generated id differs from the incoming id (the
generator draws it from the clock and a random suffix), the admitted id
differs from the source id. -/
theorem importUserRecipes_merge_spec (existing imported : List Recipe)
    (freshId : Nat → String) (now : Int) :
    (∀ s : Recipe, s ∈ importUserRecipes existing imported freshId now ↔
       (s ∈ existing ∨ ∃ (k : Nat) (r : Recipe), imported[k]? = some r
          ∧ titleExists existing r = false ∧ s = admitRecipe r (freshId k) now))
    ∧ (∀ (k : Nat) (r : Recipe), imported[k]? = some r → titleExists existing r = false →
        (admitRecipe r (freshId k) now).id = freshId k
        ∧ (admitRecipe r (freshId k) now).createdAt = now
        ∧ (freshId k ≠ r.id → (admitRecipe r (freshId k) now).id ≠ r.id)) := by
  constructor
  · intro s
    unfold importUserRecipes
    rw [List.mem_append, List.mem_filterMap]
    constructor
    · rintro (hs | ⟨⟨k, r⟩, hmem, hf⟩)
      · exact Or.inl hs
      · rw [List.mk_mem_enum_iff_getElem?] at hmem
        by_cases ht : titleExists existing r
        · rw [if_pos ht] at hf
          exact absurd hf (by simp)
        · rw [if_neg ht] at hf
          exact Or.inr ⟨k, r, hmem, by simpa using ht, (Option.some_inj.mp hf).symm⟩
    · rintro (hs | ⟨k, r, hk, ht, rfl⟩)
      · exact Or.inl hs
      · refine Or.inr ⟨(k, r), List.mk_mem_enum_iff_getElem?.mpr hk, ?_⟩
        rw [if_neg (by simp [ht])]
  · intro k r _ _
    exact ⟨rfl, rfl, fun h => h⟩

/-- C7 witness: importing a case-variant of an existing title admits
nothing for it, while a fresh title is admitted with the generated id. -/
theorem importUserRecipes_merge_spec_witness :
    (admitRecipe sampleSoup "fresh-0" 500 ∈
       importUserRecipes [sampleTacos] [sampleSoup] (fun _ => "fresh-0") 500
     ↔ (admitRecipe sampleSoup "fresh-0" 500 ∈ [sampleTacos]
        ∨ ∃ (k : Nat) (r : Recipe), [sampleSoup][k]? = some r
            ∧ titleExists [sampleTacos] r = false
            ∧ admitRecipe sampleSoup "fresh-0" 500 = admitRecipe r ((fun _ => "fresh-0") k) 500))
    ∧ ((admitRecipe sampleSoup ((fun _ : Nat => "fresh-0") 0) 500).id = "fresh-0"
       ∧ (admitRecipe sampleSoup ((fun _ : Nat => "fresh-0") 0) 500).createdAt = 500
       ∧ ("fresh-0" ≠ sampleSoup.id →
           (admitRecipe sampleSoup ((fun _ : Nat => "fresh-0") 0) 500).id ≠ sampleSoup.id)) :=
  ⟨(importUserRecipes_merge_spec [sampleTacos] [sampleSoup] (fun _ => "fresh-0") 500).1 _,
   (importUserRecipes_merge_spec [sampleTacos] [sampleSoup] (fun _ => "fresh-0") 500).2
     0 sampleSoup (by decide) (by decide)⟩

/-- C10: duplicate-title detection inside one import call compares only
against the pre-import collection, so two incoming recipes sharing a
title that matches no existing recipe are both admitted — the batch is
not internally deduplicated. -/
theorem importUserRecipes_no_batch_dedup (existing : List Recipe) (r1 r2 : Recipe)
    (freshId : Nat → String) (now : Int)
    (htitle : lowerTitle r1.title = lowerTitle r2.title)
    (hnew : titleExists existing r1 = false) :
    importUserRecipes existing [r1, r2] freshId now =
      existing ++ [admitRecipe r1 (freshId 0) now, admitRecipe r2 (freshId 1) now]
    ∧ (importUserRecipes existing [r1, r2] freshId now).length = existing.length + 2 := by
  have h2 : titleExists existing r2 = false := by
    unfold titleExists at hnew ⊢
    rw [← htitle]
    exact hnew
  have hmain : importUserRecipes existing [r1, r2] freshId now =
      existing ++ [admitRecipe r1 (freshId 0) now, admitRecipe r2 (freshId 1) now] := by
    unfold importUserRecipes
    have henum : ([r1, r2] : List Recipe).enum = [(0, r1), (1, r2)] := rfl
    rw [henum]
    simp [List.filterMap_cons, hnew, h2]
  exact ⟨hmain, by rw [hmain]; simp⟩

/-- C10 witness: importing two recipes both titled like `sampleSoup`
(no existing match) admits both. -/
theorem importUserRecipes_no_batch_dedup_witness :
    importUserRecipes [sampleTacos] [sampleSoup, sampleSoup] (fun k => toString k) 500 =
      [sampleTacos] ++ [admitRecipe sampleSoup (toString 0) 500,
                        admitRecipe sampleSoup (toString 1) 500]
    ∧ (importUserRecipes [sampleTacos] [sampleSoup, sampleSoup]
        (fun k => toString k) 500).length = [sampleTacos].length + 2 :=
  importUserRecipes_no_batch_dedup [sampleTacos] sampleSoup sampleSoup
    (fun k => toString k) 500 rfl (by decide)

/-! ## Lemmas about the generator -/

/-- Every recipe the retry loop returns was built by some attempt. -/
theorem genLoop_ok_exists (env : GenEnv) (fuel attempt : Nat) (lastError : Option String)
    (delays : List Nat) (r : Recipe)
    (h : (genLoop env fuel attempt lastError delays).result = .ok r) :
    ∃ n, attemptOnce env n = .ok r := by
  induction fuel generalizing attempt lastError delays with
  | zero => simp [genLoop] at h
  | succ fuel ih =>
    rw [genLoop] at h
    split at h
    · rename_i recipe hA
      exact ⟨attempt, hA.trans (congrArg Except.ok (Except.ok.inj h))⟩
    · rename_i msg hA
      split at h
      · exact ih _ _ _ h
      · split at h
        · exact Except.noConfusion (show Except.error msg = Except.ok r from h)
        · split at h
          · exact Except.noConfusion
              (show Except.error (getHelpfulErrorMessage (some msg)) = Except.ok r from h)
          · exact ih _ _ _ h

/-- A successful attempt decomposes into a valid payload and the built
recipe. -/
theorem attemptOnce_ok (env : GenEnv) (n : Nat) (r : Recipe)
    (h : attemptOnce env n = .ok r) :
    ∃ d : RecipeData, env.service n = .responded (some d) ∧ validRecipeData d = true
      ∧ r = buildRecipe d (fetchRecipeImage env.img) (env.newId n) (env.now n) := by
  unfold attemptOnce at h
  split at h
  · exact absurd h (by simp)
  · exact absurd h (by simp)
  · rename_i d hs
    split at h
    · rename_i hv
      exact ⟨d, hs, hv, (Except.ok.inj h).symm⟩
    · exact absurd h (by simp)

/-- The fallback choice always lies in the fixed pool. -/
theorem getFallbackFoodImage_mem (i : Nat) : getFallbackFoodImage i ∈ foodImages :=
  List.get_mem _ _ _

/-- No member of the fallback pool is the empty string. -/
theorem foodImages_ne_empty : ∀ s ∈ foodImages, s ≠ "" := by decide

/-- The resolved image is a member of the fallback pool or the first
search-result link, and in the latter case it is non-empty. -/
theorem fetchRecipeImage_mem_or_link (env : ImageEnv) :
    fetchRecipeImage env ∈ foodImages ∨
      (env.items.head? = some (fetchRecipeImage env) ∧ fetchRecipeImage env ≠ "") := by
  unfold fetchRecipeImage
  split
  · exact Or.inl (getFallbackFoodImage_mem _)
  · split
    · exact Or.inl (getFallbackFoodImage_mem _)
    · split
      · exact Or.inl (getFallbackFoodImage_mem _)
      · split
        · exact Or.inl (getFallbackFoodImage_mem _)
        · rename_i link rest heq
          split
          · rename_i hcond
            simp only [Bool.and_eq_true, decide_eq_true_eq] at hcond
            exact Or.inr ⟨by simp [heq], hcond.1⟩
          · exact Or.inl (getFallbackFoodImage_mem _)

/-- The resolved image is never the empty string. -/
theorem fetchRecipeImage_ne_empty (env : ImageEnv) : fetchRecipeImage env ≠ "" := by
  rcases fetchRecipeImage_mem_or_link env with hmem | ⟨_, hne⟩
  · exact foodImages_ne_empty _ hmem
  · exact hne

/-- Renumbering: the step at position `i` carries id `i + 1`. -/
theorem stepsWithImages_get (steps : List StepData) (img : String) (i : Nat)
    (h : i < (stepsWithImages steps img).length) :
    ((stepsWithImages steps img).get ⟨i, h⟩).id = (i : Int) + 1 := by
  unfold stepsWithImages at h ⊢
  rw [List.get_eq_getElem, List.getElem_map]
  have hi : i < steps.enum.length := by
    simpa using h
  rw [List.getElem_enum]

/-- The renumbered steps keep the payload count. -/
theorem stepsWithImages_length (steps : List StepData) (img : String) :
    (stepsWithImages steps img).length = steps.length := by
  simp [stepsWithImages]

/-- C1: every recipe returned by `generateRecipe` has its steps
renumbered contiguously (`steps[i].id = i + 1`), rating 0, favorite flag
false, and a non-empty image that is a search-result link or a member of
the fixed fallback pool. -/
theorem generateRecipe_success_shape (env : GenEnv) (r : Recipe)
    (h : (generateRecipe env).result = .ok r) :
    (∀ i (hi : i < r.steps.length), (r.steps.get ⟨i, hi⟩).id = (i : Int) + 1)
    ∧ r.rating = 0
    ∧ r.isFavorite = false
    ∧ r.image ≠ ""
    ∧ (r.image ∈ foodImages ∨ env.img.items.head? = some r.image) := by
  obtain ⟨n, hn⟩ := genLoop_ok_exists env maxRetries 1 none [] r h
  obtain ⟨d, _, _, rfl⟩ := attemptOnce_ok env n r hn
  refine ⟨?_, rfl, rfl, fetchRecipeImage_ne_empty env.img, ?_⟩
  · intro i hi
    exact stepsWithImages_get _ _ i hi
  · rcases fetchRecipeImage_mem_or_link env.img with hmem | ⟨hlink, _⟩
    · exact Or.inl hmem
    · exact Or.inr hlink

/-- C1 witness: the concrete generation succeeds in this shape; the four
steps carry ids 1..4. -/
theorem generateRecipe_success_shape_witness :
    chickenRecipe.rating = 0
    ∧ chickenRecipe.isFavorite = false
    ∧ chickenRecipe.image ≠ ""
    ∧ (chickenRecipe.image ∈ foodImages ∨ chickenEnv.img.items.head? = some chickenRecipe.image)
    ∧ (chickenRecipe.steps.get ⟨0, by decide⟩).id = 1
    ∧ (chickenRecipe.steps.get ⟨3, by decide⟩).id = 4 := by
  have h := generateRecipe_success_shape chickenEnv chickenRecipe rfl
  exact ⟨h.2.1, h.2.2.1, h.2.2.2.1, h.2.2.2.2,
    by simpa using h.1 0 (by decide), by simpa using h.1 3 (by decide)⟩

/-! ## C3: presence versus non-emptiness of ingredients and steps

The required-field check of the source tests JavaScript truthiness; a
present-but-empty array is truthy, so a payload whose ingredients and
steps arrays are empty passes validation and produces a recipe with
empty sequences. -/

/-- C3 counterexample: a generation with present-but-empty ingredients
and steps arrays succeeds, and the returned recipe has empty ingredients
and empty steps — the Generator does not guarantee non-emptiness. -/
theorem generator_accepts_empty_arrays :
    (generateRecipe emptyArraysEnv).result = .ok emptyArraysRecipe
    ∧ emptyArraysRecipe.ingredients = []
    ∧ emptyArraysRecipe.steps = [] :=
  ⟨rfl, rfl, rfl⟩

/-- C3 amended: for every recipe returned by the Generator the
ingredients and steps arrays were PRESENT in the payload (that is what
the validation checks), and the recipe carries exactly those arrays —
so they are non-empty precisely when the payload arrays are non-empty,
which the Generator does not itself enforce. -/
theorem generator_arrays_from_payload (env : GenEnv) (r : Recipe)
    (h : (generateRecipe env).result = .ok r) :
    ∃ (n : Nat) (d : RecipeData),
      env.service n = .responded (some d)
      ∧ d.ingredients.isSome = true
      ∧ d.steps.isSome = true
      ∧ r.ingredients = d.ingredients.getD []
      ∧ r.steps.length = (d.steps.getD []).length
      ∧ (d.ingredients.getD [] ≠ [] → r.ingredients ≠ [])
      ∧ (d.steps.getD [] ≠ [] → r.steps ≠ []) := by
  obtain ⟨n, hn⟩ := genLoop_ok_exists env maxRetries 1 none [] r h
  obtain ⟨d, hs, hv, rfl⟩ := attemptOnce_ok env n r hn
  have hvd := hv
  unfold validRecipeData at hvd
  simp only [Bool.and_eq_true] at hvd
  refine ⟨n, d, hs, hvd.1.2, hvd.2, rfl, stepsWithImages_length _ _, fun hne => ?_, fun hne => ?_⟩
  · simpa [buildRecipe] using hne
  · have := stepsWithImages_length (d.steps.getD []) (fetchRecipeImage env.img)
    intro hcon
    rw [show (buildRecipe d (fetchRecipeImage env.img) (env.newId n) (env.now n)).steps
          = stepsWithImages (d.steps.getD []) (fetchRecipeImage env.img) from rfl] at hcon
    rw [hcon] at this
    exact hne (List.length_eq_zero.mp this.symm)

/-- C3 amended witness: on `chickenEnv` the returned recipe draws its
two ingredients and four steps from the payload. -/
theorem generator_arrays_from_payload_witness :
    ∃ (n : Nat) (d : RecipeData),
      chickenEnv.service n = .responded (some d)
      ∧ d.ingredients.isSome = true
      ∧ d.steps.isSome = true
      ∧ chickenRecipe.ingredients = d.ingredients.getD []
      ∧ chickenRecipe.steps.length = (d.steps.getD []).length
      ∧ (d.ingredients.getD [] ≠ [] → chickenRecipe.ingredients ≠ [])
      ∧ (d.steps.getD [] ≠ [] → chickenRecipe.steps ≠ []) :=
  generator_arrays_from_payload chickenEnv chickenRecipe rfl

/-! ## C4: retry with exponential backoff on rate-limit signals -/

/-- Step equation of the loop: a successful attempt returns at once. -/
theorem genLoop_succ_ok (env : GenEnv) (fuel attempt : Nat) (lastError : Option String)
    (delays : List Nat) (recipe : Recipe) (hA : attemptOnce env attempt = .ok recipe) :
    genLoop env (fuel + 1) attempt lastError delays = ⟨.ok recipe, attempt, delays⟩ := by
  rw [genLoop, hA]

/-- Step equation of the loop: a failing attempt picks one of the four
catch branches. -/
theorem genLoop_succ_error (env : GenEnv) (fuel attempt : Nat) (lastError : Option String)
    (delays : List Nat) (msg : String) (hA : attemptOnce env attempt = .error msg) :
    genLoop env (fuel + 1) attempt lastError delays =
      if isRateLimitSignal msg && decide (attempt < maxRetries) then
        genLoop env fuel (attempt + 1) (some msg) (delays ++ [baseDelay * 2 ^ (attempt - 1)])
      else if attempt = 1 && !isRetryableError msg then
        ⟨.error msg, 1, delays⟩
      else if attempt = maxRetries then
        ⟨.error (getHelpfulErrorMessage (some msg)), attempt, delays⟩
      else genLoop env fuel (attempt + 1) (some msg) (delays ++ [baseDelay * attempt]) := by
  rw [genLoop, hA]

/-- C4: when the service fails with a rate-limit signal on attempts 1
and 2 and returns a valid payload on attempt 3, `generateRecipe`
succeeds with the attempt-3 recipe, makes exactly 3 (hence at most
`maxRetries`) attempts, and sleeps `baseDelay * 2 ^ 0` then
`baseDelay * 2 ^ 1` — strictly increasing, doubling per attempt. -/
theorem generateRecipe_backoff_retry (env : GenEnv) (m1 m2 : String) (d : RecipeData)
    (h1 : env.service 1 = .threw m1) (hr1 : isRateLimitSignal m1 = true)
    (h2 : env.service 2 = .threw m2) (hr2 : isRateLimitSignal m2 = true)
    (h3 : env.service 3 = .responded (some d)) (hv : validRecipeData d = true) :
    (generateRecipe env).result =
      .ok (buildRecipe d (fetchRecipeImage env.img) (env.newId 3) (env.now 3))
    ∧ (generateRecipe env).attemptsMade = 3
    ∧ (generateRecipe env).attemptsMade ≤ maxRetries
    ∧ (generateRecipe env).delays = [baseDelay * 2 ^ 0, baseDelay * 2 ^ 1]
    ∧ baseDelay * 2 ^ 0 < baseDelay * 2 ^ 1 := by
  have e1 : attemptOnce env 1 = .error m1 := by
    unfold attemptOnce
    rw [h1]
  have e2 : attemptOnce env 2 = .error m2 := by
    unfold attemptOnce
    rw [h2]
  have e3 : attemptOnce env 3 =
      .ok (buildRecipe d (fetchRecipeImage env.img) (env.newId 3) (env.now 3)) := by
    unfold attemptOnce
    rw [h3]
    simp [hv]
  have hgen : generateRecipe env =
      ⟨.ok (buildRecipe d (fetchRecipeImage env.img) (env.newId 3) (env.now 3)), 3,
        [baseDelay * 2 ^ 0, baseDelay * 2 ^ 1]⟩ := by
    unfold generateRecipe
    show genLoop env (2 + 1) 1 none [] = _
    rw [genLoop_succ_error env 2 1 none [] m1 e1, hr1]
    rw [if_pos (by decide : (true && decide (1 < maxRetries)) = true)]
    show genLoop env (1 + 1) 2 (some m1) [baseDelay * 2 ^ 0] = _
    rw [genLoop_succ_error env 1 2 (some m1) [baseDelay * 2 ^ 0] m2 e2, hr2]
    rw [if_pos (by decide : (true && decide (2 < maxRetries)) = true)]
    show genLoop env (0 + 1) 3 (some m2) [baseDelay * 2 ^ 0, baseDelay * 2 ^ 1] = _
    rw [genLoop_succ_ok env 0 3 (some m2) [baseDelay * 2 ^ 0, baseDelay * 2 ^ 1] _ e3]
  rw [hgen]
  refine ⟨rfl, rfl, by simp [maxRetries], rfl, by simp [baseDelay]⟩

/-- C4 witness: the concrete rate-limited service succeeds on attempt 3
with delays 2000 ms then 4000 ms. -/
theorem generateRecipe_backoff_retry_witness :
    (generateRecipe backoffEnv).result =
      .ok (buildRecipe chickenPayload (fetchRecipeImage backoffEnv.img)
            (backoffEnv.newId 3) (backoffEnv.now 3))
    ∧ (generateRecipe backoffEnv).attemptsMade = 3
    ∧ (generateRecipe backoffEnv).attemptsMade ≤ maxRetries
    ∧ (generateRecipe backoffEnv).delays = [baseDelay * 2 ^ 0, baseDelay * 2 ^ 1]
    ∧ baseDelay * 2 ^ 0 < baseDelay * 2 ^ 1 :=
  generateRecipe_backoff_retry backoffEnv "rate limit" "rate limit" chickenPayload
    rfl (by decide) rfl (by decide) rfl (by decide)

/-! ## C2: which span the extraction takes

The source matches the greedy brace pattern, which spans from the first
opening brace to the LAST closing brace of the whole response text; the
spec instead requires the FIRST top-level brace span. The two differ as
soon as the prose after the payload contains a closing brace. -/

/-- If `c` does not occur in `l`, it has no last occurrence. -/
theorem lastIdxChar_eq_none (l : List Char) (c : Char) (h : c ∉ l) :
    lastIdxChar l c = none := by
  induction l with
  | nil => rfl
  | cons a l ih =>
    have hne : a ≠ c := fun hc => h (hc ▸ List.mem_cons_self a l)
    have hl : c ∉ l := fun hc => h (List.mem_cons_of_mem a hc)
    rw [lastIdxChar, ih hl]
    simp [hne]

/-- Appending characters free of `c` does not move the last occurrence. -/
theorem lastIdxChar_append_none (l1 l2 : List Char) (c : Char) (h : c ∉ l2) :
    lastIdxChar (l1 ++ l2) c = lastIdxChar l1 c := by
  induction l1 with
  | nil => simpa using lastIdxChar_eq_none l2 c h
  | cons a l1 ih =>
    rw [List.cons_append, lastIdxChar, lastIdxChar, ih]

/-- The last occurrence inside the right part shifts by the left length. -/
theorem lastIdxChar_append_some (l1 l2 : List Char) (c : Char) (j : Nat)
    (h : lastIdxChar l2 c = some j) :
    lastIdxChar (l1 ++ l2) c = some (l1.length + j) := by
  induction l1 with
  | nil => simpa using h
  | cons a l1 ih =>
    rw [List.cons_append, lastIdxChar, ih]
    simp [Nat.add_assoc, Nat.add_comm 1 j]

/-- The first occurrence inside the right part shifts by the length of a
left part free of `c`. -/
theorem firstIdxChar_append_some (l1 l2 : List Char) (c : Char) (k : Nat)
    (h1 : c ∉ l1) (h2 : firstIdxChar l2 c = some k) :
    firstIdxChar (l1 ++ l2) c = some (l1.length + k) := by
  induction l1 with
  | nil => simpa using h2
  | cons a l1 ih =>
    have hne : a ≠ c := fun hc => h1 (hc ▸ List.mem_cons_self a l1)
    have hl : c ∉ l1 := fun hc => h1 (List.mem_cons_of_mem a hc)
    rw [List.cons_append, firstIdxChar, if_neg hne, ih hl]
    simp [Nat.add_assoc, Nat.add_comm 1 k]

/-- C2 counterexample: on the response text a{b}c} (prose after the
payload containing a closing brace) the source extraction takes the
greedy span through the final closing brace, which differs from the
first top-level span the spec requires — and is not a well-formed
payload, so parsing the extracted portion fails. -/
theorem extractJsonMatch_not_first_topLevel :
    extractJsonMatch ['a', '{', 'b', '}', 'c', '}']
        = some ['{', 'b', '}', 'c', '}']
    ∧ firstTopLevelSpan ['a', '{', 'b', '}', 'c', '}'] = some ['{', 'b', '}']
    ∧ extractJsonMatch ['a', '{', 'b', '}', 'c', '}']
        ≠ firstTopLevelSpan ['a', '{', 'b', '}', 'c', '}'] := by
  decide

/-- C2 amended: the extraction spans from the first opening brace to the
last closing brace of the response text; consequently, when the prose
before the payload contains no opening brace and the prose after it
contains no closing brace, exactly the payload span is extracted (and
only then is the parsed portion the structured payload). -/
theorem extractJsonMatch_greedy_span (pre inner post : List Char)
    (hpre : '{' ∉ pre) (hpost : '}' ∉ post) :
    extractJsonMatch (pre ++ ('{' :: (inner ++ ['}'])) ++ post)
      = some ('{' :: (inner ++ ['}'])) := by
  have hmid : lastIdxChar ('{' :: (inner ++ ['}'])) '}' = some (inner.length + 1) := by
    have hin : lastIdxChar (inner ++ ['}']) '}' = some inner.length := by
      have : lastIdxChar (['}'] : List Char) '}' = some 0 := rfl
      simpa using lastIdxChar_append_some inner ['}'] '}' 0 this
    rw [lastIdxChar, hin]
  have hlast : lastIdxChar (pre ++ ('{' :: (inner ++ ['}'])) ++ post) '}'
      = some (pre.length + (inner.length + 1)) := by
    rw [lastIdxChar_append_none _ post _ hpost]
    exact lastIdxChar_append_some pre _ '}' (inner.length + 1) hmid
  have htake : (pre ++ ('{' :: (inner ++ ['}'])) ++ post).take (pre.length + (inner.length + 1))
      = pre ++ ('{' :: inner) := by
    have hassoc : pre ++ ('{' :: (inner ++ ['}'])) ++ post
        = (pre ++ ('{' :: inner)) ++ ('}' :: post) := by
      simp
    have hlen : (pre ++ ('{' :: inner)).length = pre.length + (inner.length + 1) := by
      simp [Nat.add_comm]
    rw [hassoc, ← hlen, List.take_left]
  have hfirst : firstIdxChar (pre ++ ('{' :: inner)) '{' = some pre.length := by
    have h0 : firstIdxChar ('{' :: inner) '{' = some 0 := by
      rw [firstIdxChar, if_pos rfl]
    simpa using firstIdxChar_append_some pre ('{' :: inner) '{' 0 hpre h0
  have hdrop : (pre ++ ('{' :: (inner ++ ['}'])) ++ post).drop pre.length
      = ('{' :: (inner ++ ['}'])) ++ post := by
    have hassoc : pre ++ ('{' :: (inner ++ ['}'])) ++ post
        = pre ++ (('{' :: (inner ++ ['}'])) ++ post) := by
      simp
    rw [hassoc, List.drop_left]
  have htakespan : (('{' :: (inner ++ ['}'])) ++ post).take
        (pre.length + (inner.length + 1) + 1 - pre.length)
      = '{' :: (inner ++ ['}']) := by
    have harith : pre.length + (inner.length + 1) + 1 - pre.length
        = ('{' :: (inner ++ ['}'])).length := by
      simp
      omega
    rw [harith, List.take_left]
  unfold extractJsonMatch
  rw [hlast, Option.some_bind, htake, hfirst, Option.map_some', hdrop, htakespan]

/-- C2 amended witness: with prose a before and c after the payload
span, exactly the span from its opening to its closing brace is
extracted. -/
theorem extractJsonMatch_greedy_span_witness :
    extractJsonMatch (['a'] ++ ('{' :: (['b'] ++ ['}'])) ++ ['c'])
      = some ('{' :: (['b'] ++ ['}'])) :=
  extractJsonMatch_greedy_span ['a'] ['b'] ['c'] (by decide) (by decide)

end CookAI
